import Mathlib

/-!
Verification of the order-flow renderer `plot_order_flow` from
`src/notebooks/Hasbrouck_Market_Microstructure/order_book_simulations/utilities.py`.

The Python function consumes a list of order-book snapshots (each snapshot a
list of `[time, price, volume, side]` levels), plus optional trade-overlay
sequences, and issues a fixed set of drawing calls (bars, gridlines, spread
fills, a price line, two scatter layers).  The embedding below mirrors the
function line by line: numbers become rationals, the drawing calls become the
fields of an `Output` record, and the two run-time faults the code can hit
before it draws anything (the `ValueError` from unpacking `zip(*...)` of an
empty side on lines 34-35, and the `ZeroDivisionError` on line 39) become the
constructors of `Err`.
-/

namespace OrderFlow

/-- One book level `[time, price, volume, side]` as stored inside a snapshot
(see the docstring of `plot_order_flow`, lines 10-17).  The side tag is a plain
string; the code compares it against the literals "ask" and "bid". -/
structure Level where
  time : ℚ
  price : ℚ
  volume : ℚ
  side : String
deriving Repr, DecidableEq

/-- The run-time faults `plot_order_flow` can raise before any drawing call:
the `ValueError` ("not enough values to unpack") raised by
`ask_times, ask_prices, ask_volumes = zip(*[...])` on lines 34-35 when a side
is empty, and the `ZeroDivisionError` raised by `v / max_volume` on line 39
when `max_volume == 0`. -/
inductive Err where
  | notEnoughValuesToUnpack
  | zeroDivisionError
deriving Repr, DecidableEq

/-- Python `max` over a list of numbers (a left fold of the binary max over the
tail, started at the head).  The `[]` case is junk: Python `max([])` raises,
and every use site below is guarded by a non-emptiness check. -/
def pyMax : List ℚ → ℚ
  | [] => 0
  | x :: xs => xs.foldl max x

/-- Python `min` over a list of numbers; `[]` case junk exactly as in `pyMax`. -/
def pyMin : List ℚ → ℚ
  | [] => 0
  | x :: xs => xs.foldl min x

/-- Python truthiness of an optional list argument: `None` and the empty list
are both falsy (`if price_sequence:` on line 80 and
`if volumes_sequence and buy_sequence and sell_sequence:` on line 85). -/
def truthy : Option (List ℚ) → Bool
  | none => false
  | some l => !l.isEmpty

/-- Line 30:
`ask_data = [item for sublist in book_state_sequence for item in sublist if item[3] == 'ask']`. -/
def askData (book_state_sequence : List (List Level)) : List Level :=
  book_state_sequence.flatten.filter (fun item => item.side == "ask")

/-- Line 31:
`bid_data = [item for sublist in book_state_sequence for item in sublist if item[3] == 'bid']`. -/
def bidData (book_state_sequence : List (List Level)) : List Level :=
  book_state_sequence.flatten.filter (fun item => item.side == "bid")

/-- Line 38: `max_volume = max(max(ask_volumes), max(bid_volumes))`, where
`ask_volumes`/`bid_volumes` are the third components of `ask_data`/`bid_data`
(line 34-35). -/
def maxVolume (book_state_sequence : List (List Level)) : ℚ :=
  max (pyMax ((askData book_state_sequence).map Level.volume))
    (pyMax ((bidData book_state_sequence).map Level.volume))

/-- The ask prices quoted at time step `t`: the prices of the ask levels whose
time field equals `t`.  Lemma `pricesAt_eq` below shows that the comprehension
on line 61, `[p for time, p in zip(ask_times, ask_prices) if time == t]`,
computes exactly this list. -/
def asksAtTime (book_state_sequence : List (List Level)) (t : ℚ) : List ℚ :=
  ((askData book_state_sequence).filter (fun l => decide (l.time = t))).map Level.price

/-- The bid prices quoted at time step `t` (line 62). -/
def bidsAtTime (book_state_sequence : List (List Level)) (t : ℚ) : List ℚ :=
  ((bidData book_state_sequence).filter (fun l => decide (l.time = t))).map Level.price

/-- Lines 80-87: the trade overlay.  Returns the price line
(`ax.plot(x, y, ...)`, line 82) and the two scatter size lists (`s=[...]` of
the green and red `ax.scatter` calls, lines 86-87); a component is `none` when
the corresponding plotting call is not executed.  Both guards use Python
truthiness, and the size lists are built with `zip`, which silently truncates
to the shorter sequence. -/
def tradeOverlay
    (price_sequence volumes_sequence buy_sequence sell_sequence : Option (List ℚ)) :
    Option (List ℚ × List ℚ) × Option (List ℚ) × Option (List ℚ) :=
  if truthy price_sequence then
    let ps := price_sequence.getD []
    let pairs := ps.enum.map (fun iv => ((iv.1 : ℚ) + 1, iv.2))
    let x := pairs.map Prod.fst
    let y := pairs.map Prod.snd
    if truthy volumes_sequence && truthy buy_sequence && truthy sell_sequence then
      (some (x, y),
       some ((((volumes_sequence.getD []).zip (buy_sequence.getD [])).map
          (fun vb => vb.1 * vb.2)).map (fun val => val * 20)),
       some ((((volumes_sequence.getD []).zip (sell_sequence.getD [])).map
          (fun vb => vb.1 * vb.2)).map (fun val => val * 20)))
    else
      (some (x, y), none, none)
  else
    (none, none, none)

/-- The drawing calls issued by one successful run of `plot_order_flow`, in
source order.  A bar is recorded as `(x, height, bottom)` matching
`ax.bar(t, v, width=1, bottom=p)` (lines 46 and 50; the bid height is the
negated normalized volume).  A spread fill is recorded as
`(t, max_bid_price, min_ask_price)` matching `ax.fill_between([t - 1/2,
t + 1/2], max_bid_price, min_ask_price, ...)` on line 67 (the drawn x-span is
always `[t - 1/2, t + 1/2]`, so recording `t` loses nothing). -/
structure Output where
  askBars : List (ℚ × ℚ × ℚ)
  bidBars : List (ℚ × ℚ × ℚ)
  gridlines : List ℚ
  spreadFills : List (ℚ × ℚ × ℚ)
  xlim : ℚ × ℚ
  priceLine : Option (List ℚ × List ℚ)
  greenSizes : Option (List ℚ)
  redSizes : Option (List ℚ)
deriving Repr, DecidableEq

/-- Lines 42-87 of `plot_order_flow`: everything the function draws once the
three possible early faults are ruled out.  `sorted(set(...))` is embedded as
`List.insertionSort` of `List.dedup` (the distinct values in ascending
order). -/
def mkOutput (book_state_sequence : List (List Level))
    (price_sequence volumes_sequence buy_sequence sell_sequence : Option (List ℚ)) :
    Output :=
  let ask_data := askData book_state_sequence
  let bid_data := bidData book_state_sequence
  let ask_times := ask_data.map Level.time
  let ask_prices := ask_data.map Level.price
  let ask_volumes := ask_data.map Level.volume
  let bid_times := bid_data.map Level.time
  let bid_prices := bid_data.map Level.price
  let bid_volumes := bid_data.map Level.volume
  let max_volume := maxVolume book_state_sequence
  let norm_ask_volumes := ask_volumes.map (fun v => v / max_volume)
  let norm_bid_volumes := bid_volumes.map (fun v => v / max_volume)
  let overlay := tradeOverlay price_sequence volumes_sequence buy_sequence sell_sequence
  { askBars := (ask_times.zip (ask_prices.zip norm_ask_volumes)).map
      (fun tpv => (tpv.1, tpv.2.2, tpv.2.1))
    bidBars := (bid_times.zip (bid_prices.zip norm_bid_volumes)).map
      (fun tpv => (tpv.1, -tpv.2.2, tpv.2.1))
    gridlines := List.insertionSort (fun a b => a ≤ b) (ask_prices ++ bid_prices).dedup
    spreadFills := (List.insertionSort (fun a b => a ≤ b) (ask_times ++ bid_times).dedup).filterMap
      (fun t =>
        let ask_prices_at_t :=
          ((ask_times.zip ask_prices).filter (fun tp => decide (tp.1 = t))).map Prod.snd
        let bid_prices_at_t :=
          ((bid_times.zip bid_prices).filter (fun tp => decide (tp.1 = t))).map Prod.snd
        if ask_prices_at_t ≠ [] ∧ bid_prices_at_t ≠ [] then
          some (t, pyMax bid_prices_at_t, pyMin ask_prices_at_t)
        else
          none)
    xlim := (pyMin (ask_times ++ bid_times), pyMax (ask_times ++ bid_times))
    priceLine := overlay.1
    greenSizes := overlay.2.1
    redSizes := overlay.2.2 }

/-- The whole of `plot_order_flow`.  The three guards are, in the order the
Python interpreter would hit them: the unpack of the ask side (line 34), the
unpack of the bid side (line 35), and the division by `max_volume` (line 39,
reached first inside the `norm_ask_volumes` comprehension, which is non-empty
whenever line 39 is reached).  All three fire before the figure is created on
line 42, i.e. before any drawing. -/
def plotOrderFlow (book_state_sequence : List (List Level))
    (price_sequence volumes_sequence buy_sequence sell_sequence : Option (List ℚ)) :
    Except Err Output :=
  if askData book_state_sequence = [] then
    Except.error Err.notEnoughValuesToUnpack
  else if bidData book_state_sequence = [] then
    Except.error Err.notEnoughValuesToUnpack
  else if maxVolume book_state_sequence = 0 then
    Except.error Err.zeroDivisionError
  else
    Except.ok (mkOutput book_state_sequence price_sequence volumes_sequence
      buy_sequence sell_sequence)

/-- `true` exactly when the render call completes without raising. -/
def renderSucceeds : Except Err Output → Bool
  | Except.ok _ => true
  | Except.error _ => false

/-- The price line drawn by a render call (`none` when the call raised or drew
no price line). -/
def priceLineOf : Except Err Output → Option (List ℚ × List ℚ)
  | Except.ok o => o.priceLine
  | Except.error _ => none

/-- The green scatter size list of a render call, when that scatter was drawn. -/
def greenSizesOf : Except Err Output → Option (List ℚ)
  | Except.ok o => o.greenSizes
  | Except.error _ => none

/-- The red scatter size list of a render call, when that scatter was drawn. -/
def redSizesOf : Except Err Output → Option (List ℚ)
  | Except.ok o => o.redSizes
  | Except.error _ => none

/-- The two-step example book from the docstring of `plot_order_flow`,
trimmed to one ask and one bid level per step (the example of section 8 of the
design document): used as the concrete input of the witnesses. -/
def sampleBook : List (List Level) :=
  [[⟨1, 101, 2, "ask"⟩, ⟨1, 99, 5, "bid"⟩],
   [⟨2, 101, 4, "ask"⟩, ⟨2, 99, 5, "bid"⟩]]

/-! ### Helper lemmas about the fold that embeds Python max -/

theorem le_foldl_max (xs : List ℚ) : ∀ a : ℚ, a ≤ xs.foldl max a := by
  induction xs with
  | nil => intro a; exact le_refl a
  | cons x xs ih =>
    intro a
    exact le_trans (le_max_left a x) (ih (max a x))

theorem mem_le_foldl_max (xs : List ℚ) : ∀ (a x : ℚ), x ∈ xs → x ≤ xs.foldl max a := by
  induction xs with
  | nil => intro a x hx; cases hx
  | cons y ys ih =>
    intro a x hx
    rcases List.mem_cons.mp hx with rfl | hx
    · exact le_trans (le_max_right a x) (le_foldl_max ys (max a x))
    · exact ih (max a y) x hx

theorem foldl_max_mem (xs : List ℚ) : ∀ a : ℚ, xs.foldl max a = a ∨ xs.foldl max a ∈ xs := by
  induction xs with
  | nil => intro a; exact Or.inl rfl
  | cons x xs ih =>
    intro a
    rcases ih (max a x) with h | h
    · rcases max_choice a x with h2 | h2
      · left; rw [List.foldl_cons, h, h2]
      · right; rw [List.foldl_cons, h, h2]; exact List.mem_cons_self x xs
    · right; exact List.mem_cons_of_mem x h

theorem foldl_max_le (xs : List ℚ) :
    ∀ (a c : ℚ), a ≤ c → (∀ x ∈ xs, x ≤ c) → xs.foldl max a ≤ c := by
  induction xs with
  | nil => intro a c ha _; exact ha
  | cons x xs ih =>
    intro a c ha hxs
    exact ih (max a x) c (max_le ha (hxs x (List.mem_cons_self x xs)))
      (fun y hy => hxs y (List.mem_cons_of_mem x hy))

theorem pyMax_mem {l : List ℚ} (h : l ≠ []) : pyMax l ∈ l := by
  match l with
  | [] => exact absurd rfl h
  | x :: xs =>
    rcases foldl_max_mem xs x with h2 | h2
    · rw [pyMax, h2]; exact List.mem_cons_self x xs
    · exact List.mem_cons_of_mem x h2

theorem le_pyMax {l : List ℚ} {x : ℚ} (hx : x ∈ l) : x ≤ pyMax l := by
  match l with
  | [] => cases hx
  | y :: ys =>
    rcases List.mem_cons.mp hx with rfl | hx
    · exact le_foldl_max ys x
    · exact mem_le_foldl_max ys y x hx

theorem pyMax_le {l : List ℚ} {c : ℚ} (h : l ≠ []) (hall : ∀ x ∈ l, x ≤ c) :
    pyMax l ≤ c := by
  match l with
  | [] => exact absurd rfl h
  | x :: xs =>
    exact foldl_max_le xs x c (hall x (List.mem_cons_self x xs))
      (fun y hy => hall y (List.mem_cons_of_mem x hy))

theorem pyMax_eq_zero_of_all_zero {l : List ℚ} (h : ∀ x ∈ l, x = 0) : pyMax l = 0 := by
  match l with
  | [] => rfl
  | x :: xs =>
    apply le_antisymm
    · exact pyMax_le (List.cons_ne_nil x xs) (fun y hy => le_of_eq (h y hy))
    · calc (0 : ℚ) = x := (h x (List.mem_cons_self x xs)).symm
        _ ≤ pyMax (x :: xs) := le_pyMax (List.mem_cons_self x xs)

/-! ### Structural lemmas: the zip-comprehensions of the source in closed form -/

theorem zip_maps_eq (L : List Level) (f : ℚ → ℚ) :
    (L.map Level.time).zip ((L.map Level.price).zip ((L.map Level.volume).map f))
      = L.map (fun l => (l.time, l.price, f l.volume)) := by
  induction L with
  | nil => rfl
  | cons a t ih => simp only [List.map_cons, List.zip_cons_cons, ih]

theorem zip_tp_eq (L : List Level) :
    (L.map Level.time).zip (L.map Level.price) = L.map (fun l => (l.time, l.price)) := by
  induction L with
  | nil => rfl
  | cons a t ih => simp only [List.map_cons, List.zip_cons_cons, ih]

theorem pricesAt_eq (L : List Level) (t : ℚ) :
    (((L.map Level.time).zip (L.map Level.price)).filter
        (fun tp => decide (tp.1 = t))).map Prod.snd
      = (L.filter (fun l => decide (l.time = t))).map Level.price := by
  rw [zip_tp_eq, List.filter_map, List.map_map]
  rfl

theorem askBars_mkOutput (bss : List (List Level))
    (p v b s : Option (List ℚ)) :
    (mkOutput bss p v b s).askBars
      = (askData bss).map (fun l => (l.time, l.volume / maxVolume bss, l.price)) := by
  have h := zip_maps_eq (askData bss) (fun v => v / maxVolume bss)
  simp only [mkOutput, h]
  simp only [List.map_map]
  rfl

theorem bidBars_mkOutput (bss : List (List Level))
    (p v b s : Option (List ℚ)) :
    (mkOutput bss p v b s).bidBars
      = (bidData bss).map (fun l => (l.time, -(l.volume / maxVolume bss), l.price)) := by
  have h := zip_maps_eq (bidData bss) (fun v => v / maxVolume bss)
  simp only [mkOutput, h]
  simp only [List.map_map]
  rfl

theorem gridlines_mkOutput (bss : List (List Level))
    (p v b s : Option (List ℚ)) :
    (mkOutput bss p v b s).gridlines
      = List.insertionSort (fun a b => a ≤ b)
          ((askData bss).map Level.price ++ (bidData bss).map Level.price).dedup := rfl

theorem spreadFills_mkOutput (bss : List (List Level))
    (p v b s : Option (List ℚ)) :
    (mkOutput bss p v b s).spreadFills
      = (List.insertionSort (fun a b => a ≤ b)
          ((askData bss).map Level.time ++ (bidData bss).map Level.time).dedup).filterMap
          (fun t =>
            if asksAtTime bss t ≠ [] ∧ bidsAtTime bss t ≠ [] then
              some (t, pyMax (bidsAtTime bss t), pyMin (asksAtTime bss t))
            else
              none) := by
  simp only [mkOutput]
  congr 1
  funext t
  rw [pricesAt_eq, pricesAt_eq]
  rfl

theorem overlay_mkOutput (bss : List (List Level))
    (p v b s : Option (List ℚ)) :
    (mkOutput bss p v b s).priceLine = (tradeOverlay p v b s).1
      ∧ (mkOutput bss p v b s).greenSizes = (tradeOverlay p v b s).2.1
      ∧ (mkOutput bss p v b s).redSizes = (tradeOverlay p v b s).2.2 :=
  ⟨rfl, rfl, rfl⟩

/-! ### Inversion of the guard structure of `plotOrderFlow` -/

theorem plot_ok_iff (bss : List (List Level)) (p v b s : Option (List ℚ)) (out : Output) :
    plotOrderFlow bss p v b s = Except.ok out ↔
      askData bss ≠ [] ∧ bidData bss ≠ [] ∧ maxVolume bss ≠ 0
        ∧ out = mkOutput bss p v b s := by
  unfold plotOrderFlow
  split_ifs with h1 h2 h3
  · simp [h1]
  · simp [h2]
  · simp [h3]
  · simp only [Except.ok.injEq]
    constructor
    · intro h; exact ⟨h1, h2, h3, h.symm⟩
    · intro h; exact h.2.2.2.symm

theorem plot_eq_ok (bss : List (List Level)) (p v b s : Option (List ℚ))
    (h1 : askData bss ≠ []) (h2 : bidData bss ≠ []) (h3 : maxVolume bss ≠ 0) :
    plotOrderFlow bss p v b s = Except.ok (mkOutput bss p v b s) :=
  (plot_ok_iff bss p v b s (mkOutput bss p v b s)).mpr ⟨h1, h2, h3, rfl⟩

/-! ### Truthiness and the overlay -/

theorem tradeOverlay_some_nil (v b s : Option (List ℚ)) :
    tradeOverlay (some []) v b s = tradeOverlay none v b s := rfl

theorem tradeOverlay_all (ps vs bs ss : List ℚ)
    (hps : ps ≠ []) (hvs : vs ≠ []) (hbs : bs ≠ []) (hss : ss ≠ []) :
    tradeOverlay (some ps) (some vs) (some bs) (some ss)
      = (some ((ps.enum.map (fun iv => ((iv.1 : ℚ) + 1, iv.2))).map Prod.fst,
               (ps.enum.map (fun iv => ((iv.1 : ℚ) + 1, iv.2))).map Prod.snd),
         some (((vs.zip bs).map (fun vb => vb.1 * vb.2)).map (fun val => val * 20)),
         some (((vs.zip ss).map (fun vb => vb.1 * vb.2)).map (fun val => val * 20))) := by
  simp [tradeOverlay, truthy, List.isEmpty_iff, hps, hvs, hbs, hss]

/-! ### Dropping levels whose side tag is neither "ask" nor "bid" -/

theorem flatten_map_filter (p : Level → Bool) (L : List (List Level)) :
    (L.map (fun snap => snap.filter p)).flatten = L.flatten.filter p := by
  induction L with
  | nil => rfl
  | cons a t ih => simp only [List.map_cons, List.flatten_cons, List.filter_append, ih]

theorem askData_dropJunk (bss : List (List Level)) :
    askData (bss.map (fun snap => snap.filter
        (fun l => l.side == "ask" || l.side == "bid")))
      = askData bss := by
  unfold askData
  rw [flatten_map_filter, List.filter_filter]
  apply List.filter_congr
  intro a _
  cases hx : a.side == "ask" <;> simp [hx]

theorem bidData_dropJunk (bss : List (List Level)) :
    bidData (bss.map (fun snap => snap.filter
        (fun l => l.side == "ask" || l.side == "bid")))
      = bidData bss := by
  unfold bidData
  rw [flatten_map_filter, List.filter_filter]
  apply List.filter_congr
  intro a _
  cases hy : a.side == "bid" <;> simp [hy]

/-- Claim C9: a Level whose side tag is neither exactly "ask" nor exactly "bid"
is silently dropped from the entire rendering: removing all such levels from
every snapshot leaves the render call (errors, bars, gridlines, spread fills,
axis limits, overlay) unchanged, so such levels contribute nothing anywhere and
never raise. -/
theorem unknown_side_levels_ignored (bss : List (List Level))
    (p v b s : Option (List ℚ)) :
    plotOrderFlow (bss.map (fun snap => snap.filter
        (fun l => l.side == "ask" || l.side == "bid"))) p v b s
      = plotOrderFlow bss p v b s := by
  have hA := askData_dropJunk bss
  have hB := bidData_dropJunk bss
  simp only [plotOrderFlow, mkOutput, maxVolume, hA, hB]

/-- Claim C8: the rendered output depends only on the order-preserving
concatenation of all Levels across snapshots; two inputs with the same
flattened level list render identically. -/
theorem render_depends_only_on_flattened_levels
    (bss₁ bss₂ : List (List Level)) (p v b s : Option (List ℚ))
    (h : bss₁.flatten = bss₂.flatten) :
    plotOrderFlow bss₁ p v b s = plotOrderFlow bss₂ p v b s := by
  simp only [plotOrderFlow, mkOutput, maxVolume, askData, bidData, h]

/-- Witness for C8 at a concrete input: splitting one two-level snapshot into
two one-level snapshots does not change the render. -/
theorem render_depends_only_on_flattened_levels_witness :
    ([[Level.mk 1 101 2 "ask", Level.mk 1 99 5 "bid"]] : List (List Level)).flatten
        = ([[Level.mk 1 101 2 "ask"], [Level.mk 1 99 5 "bid"]] : List (List Level)).flatten
      ∧ plotOrderFlow [[Level.mk 1 101 2 "ask", Level.mk 1 99 5 "bid"]] none none none none
        = plotOrderFlow [[Level.mk 1 101 2 "ask"], [Level.mk 1 99 5 "bid"]] none none none none :=
  ⟨rfl, render_depends_only_on_flattened_levels _ _ none none none none rfl⟩

/-- Claim C10: an empty `price_sequence` is falsy in Python, so it behaves
exactly like `None`: the render result is identical, and no price line and no
buy/sell markers are drawn even when the volume/buy/sell sequences are
supplied; no error is raised (the result is exactly that of the `None` call). -/
theorem empty_price_sequence_like_none (bss : List (List Level))
    (v b s : Option (List ℚ)) :
    plotOrderFlow bss (some []) v b s = plotOrderFlow bss none v b s
      ∧ priceLineOf (plotOrderFlow bss (some []) v b s) = none
      ∧ greenSizesOf (plotOrderFlow bss (some []) v b s) = none
      ∧ redSizesOf (plotOrderFlow bss (some []) v b s) = none := by
  have hmain : plotOrderFlow bss (some []) v b s = plotOrderFlow bss none v b s := by
    simp only [plotOrderFlow, mkOutput, tradeOverlay_some_nil]
  refine ⟨hmain, ?_, ?_, ?_⟩ <;>
  · rw [hmain]
    unfold plotOrderFlow
    split_ifs <;> rfl

/-- Counterexample to claim C5 as stated: on the empty book the code does not
raise a descriptive InvalidInput-class error; it propagates the low-level
unpacking fault of line 34 (`ValueError` from `zip(*[])`), the only error
classes the function can produce being this and `ZeroDivisionError`. -/
theorem invalid_input_error_class_counterexample :
    plotOrderFlow [] none none none none
      = Except.error Err.notEnoughValuesToUnpack := rfl

/-- Claim C5 as amended: every invalid input (empty book, a side with no
Levels, or all volumes zero) makes the call fail before any drawing occurs,
but with the propagated low-level fault: the unpacking `ValueError` when a side
is empty (in particular for the empty book), and the `ZeroDivisionError` when
both sides are present and every volume is zero. -/
theorem invalid_input_low_level_failure (bss : List (List Level))
    (p v b s : Option (List ℚ)) :
    (askData bss = [] ∨ bidData bss = [] →
        plotOrderFlow bss p v b s = Except.error Err.notEnoughValuesToUnpack)
      ∧ (askData bss ≠ [] → bidData bss ≠ [] →
          (∀ l ∈ bss.flatten, l.volume = 0) →
          plotOrderFlow bss p v b s = Except.error Err.zeroDivisionError) := by
  constructor
  · rintro (h | h)
    · unfold plotOrderFlow
      rw [if_pos h]
    · unfold plotOrderFlow
      by_cases h1 : askData bss = []
      · rw [if_pos h1]
      · rw [if_neg h1, if_pos h]
  · intro h1 h2 hz
    have hM : maxVolume bss = 0 := by
      unfold maxVolume
      have ha : pyMax ((askData bss).map Level.volume) = 0 := by
        apply pyMax_eq_zero_of_all_zero
        intro x hx
        obtain ⟨l, hl, rfl⟩ := List.mem_map.mp hx
        exact hz l (List.mem_filter.mp hl).1
      have hb : pyMax ((bidData bss).map Level.volume) = 0 := by
        apply pyMax_eq_zero_of_all_zero
        intro x hx
        obtain ⟨l, hl, rfl⟩ := List.mem_map.mp hx
        exact hz l (List.mem_filter.mp hl).1
      rw [ha, hb, max_self]
    unfold plotOrderFlow
    rw [if_neg h1, if_neg h2, if_pos hM]

/-- Witness for the amended C5: a book with one ask and one bid, all volumes
zero, fails with the division-by-zero fault. -/
theorem invalid_input_low_level_failure_witness :
    (askData [[Level.mk 1 101 0 "ask"], [Level.mk 1 99 0 "bid"]] ≠ []
        ∧ bidData [[Level.mk 1 101 0 "ask"], [Level.mk 1 99 0 "bid"]] ≠ []
        ∧ ∀ l ∈ ([[Level.mk 1 101 0 "ask"], [Level.mk 1 99 0 "bid"]] :
            List (List Level)).flatten, l.volume = 0)
      ∧ plotOrderFlow [[Level.mk 1 101 0 "ask"], [Level.mk 1 99 0 "bid"]]
          none none none none = Except.error Err.zeroDivisionError :=
  ⟨⟨by decide, by decide, by decide⟩,
    (invalid_input_low_level_failure _ none none none none).2
      (by decide) (by decide) (by decide)⟩

/-- Counterexample to claim C6 as stated: a call whose volume/buy/sell
sequences are longer than `price_sequence` is not rejected with an
InvalidInput-class error; the render call completes. -/
theorem mismatched_overlay_accepted :
    renderSucceeds (plotOrderFlow [[Level.mk 1 101 2 "ask"], [Level.mk 1 99 5 "bid"]]
      (some [100]) (some [8, 7]) (some [1, 1]) (some [1, 1])) = true := by
  rw [plot_eq_ok [[Level.mk 1 101 2 "ask"], [Level.mk 1 99 5 "bid"]]
    (some [100]) (some [8, 7]) (some [1, 1]) (some [1, 1])
    (by decide) (by decide) (by decide)]
  rfl

/-- Claim C6 as amended: mismatched-length trade-overlay sequences are never
rejected: whether the render call fails is entirely independent of the
volume/buy/sell arguments (the code performs no length validation; the size
lists are built with `zip`, which silently truncates). -/
theorem overlay_args_never_affect_success (bss : List (List Level))
    (p v b s : Option (List ℚ)) :
    renderSucceeds (plotOrderFlow bss p v b s)
      = renderSucceeds (plotOrderFlow bss none none none none) := by
  unfold plotOrderFlow
  split_ifs <;> rfl

/-! ### The normalization denominator -/

theorem maxVolume_nonneg (bss : List (List Level)) (hA : askData bss ≠ [])
    (hnn : ∀ l ∈ bss.flatten, 0 ≤ l.volume) : 0 ≤ maxVolume bss := by
  have h1 : (askData bss).map Level.volume ≠ [] := by
    intro hnil
    exact hA (by simpa using hnil)
  obtain ⟨l, hl, hlv⟩ := List.mem_map.mp (pyMax_mem h1)
  calc (0 : ℚ) ≤ l.volume := hnn l (List.mem_filter.mp hl).1
    _ = pyMax ((askData bss).map Level.volume) := hlv
    _ ≤ maxVolume bss := le_max_left _ _

theorem maxVolume_pos (bss : List (List Level)) (hA : askData bss ≠ [])
    (hM : maxVolume bss ≠ 0) (hnn : ∀ l ∈ bss.flatten, 0 ≤ l.volume) :
    0 < maxVolume bss :=
  lt_of_le_of_ne (maxVolume_nonneg bss hA hnn) (Ne.symm hM)

/-- Claim C1: under a successful render, a spread fill is emitted for time `t`
iff step `t` has at least one ask and at least one bid Level, and its vertical
bounds are exactly the maximum bid price and the minimum ask price at `t`, in
that order, with no reordering for a crossed book. -/
theorem spread_fill_emitted_iff (bss : List (List Level))
    (p v b s : Option (List ℚ)) (out : Output)
    (h : plotOrderFlow bss p v b s = Except.ok out) (t lo hi : ℚ) :
    (t, lo, hi) ∈ out.spreadFills ↔
      asksAtTime bss t ≠ [] ∧ bidsAtTime bss t ≠ []
        ∧ lo = pyMax (bidsAtTime bss t) ∧ hi = pyMin (asksAtTime bss t) := by
  obtain ⟨-, -, -, rfl⟩ := (plot_ok_iff bss p v b s out).mp h
  rw [spreadFills_mkOutput, List.mem_filterMap]
  constructor
  · rintro ⟨u, hu, hf⟩
    by_cases hc : asksAtTime bss u ≠ [] ∧ bidsAtTime bss u ≠ []
    · rw [if_pos hc] at hf
      simp only [Option.some.injEq, Prod.mk.injEq] at hf
      obtain ⟨rfl, hlo, hhi⟩ := hf
      exact ⟨hc.1, hc.2, hlo.symm, hhi.symm⟩
    · rw [if_neg hc] at hf
      cases hf
  · rintro ⟨ha, hb, rfl, rfl⟩
    refine ⟨t, ?_, if_pos ⟨ha, hb⟩⟩
    rw [List.mem_insertionSort, List.mem_dedup, List.mem_append]
    left
    have hfilter : (askData bss).filter (fun l => decide (l.time = t)) ≠ [] := by
      intro hnil
      apply ha
      unfold asksAtTime
      rw [hnil]
      rfl
    obtain ⟨l, hl⟩ := List.exists_mem_of_ne_nil _ hfilter
    obtain ⟨hmem, hcond⟩ := List.mem_filter.mp hl
    exact List.mem_map.mpr ⟨l, hmem, of_decide_eq_true hcond⟩

/-- Witness for C1 at the docstring example book: at time 1 a fill between the
best bid 99 and the best ask 101 is emitted. -/
theorem spread_fill_emitted_iff_witness :
    plotOrderFlow sampleBook none none none none
        = Except.ok (mkOutput sampleBook none none none none)
      ∧ ((1 : ℚ), (99 : ℚ), (101 : ℚ)) ∈ (mkOutput sampleBook none none none none).spreadFills := by
  have hok : plotOrderFlow sampleBook none none none none
      = Except.ok (mkOutput sampleBook none none none none) :=
    plot_eq_ok sampleBook none none none none (by decide) (by decide) (by decide)
  exact ⟨hok, (spread_fill_emitted_iff sampleBook none none none none _ hok 1 99 101).mpr
    ⟨by decide, by decide, by decide, by decide⟩⟩

/-- Claim C2: under a successful render with non-negative volumes, every drawn
bar extent (the normalized volume: the ask bar height, and the negation of the
bid bar height, bids being drawn downward) lies in the closed interval
`[0, 1]`. -/
theorem norm_volumes_in_unit_interval (bss : List (List Level))
    (p v b s : Option (List ℚ)) (out : Output)
    (h : plotOrderFlow bss p v b s = Except.ok out)
    (hnn : ∀ l ∈ bss.flatten, 0 ≤ l.volume) :
    (∀ bar ∈ out.askBars, 0 ≤ bar.2.1 ∧ bar.2.1 ≤ 1)
      ∧ (∀ bar ∈ out.bidBars, 0 ≤ -bar.2.1 ∧ -bar.2.1 ≤ 1) := by
  obtain ⟨hA, hB, hM, rfl⟩ := (plot_ok_iff bss p v b s out).mp h
  have hMnn := maxVolume_nonneg bss hA hnn
  have hMpos := maxVolume_pos bss hA hM hnn
  constructor
  · intro bar hbar
    rw [askBars_mkOutput] at hbar
    obtain ⟨l, hl, rfl⟩ := List.mem_map.mp hbar
    refine ⟨div_nonneg (hnn l (List.mem_filter.mp hl).1) hMnn, ?_⟩
    rw [div_le_one hMpos]
    calc l.volume ≤ pyMax ((askData bss).map Level.volume) :=
          le_pyMax (List.mem_map.mpr ⟨l, hl, rfl⟩)
      _ ≤ maxVolume bss := le_max_left _ _
  · intro bar hbar
    rw [bidBars_mkOutput] at hbar
    obtain ⟨l, hl, rfl⟩ := List.mem_map.mp hbar
    simp only [neg_neg]
    refine ⟨div_nonneg (hnn l (List.mem_filter.mp hl).1) hMnn, ?_⟩
    rw [div_le_one hMpos]
    calc l.volume ≤ pyMax ((bidData bss).map Level.volume) :=
          le_pyMax (List.mem_map.mpr ⟨l, hl, rfl⟩)
      _ ≤ maxVolume bss := le_max_right _ _

/-- Witness for C2 at the docstring example book. -/
theorem norm_volumes_in_unit_interval_witness :
    (plotOrderFlow sampleBook none none none none
        = Except.ok (mkOutput sampleBook none none none none)
      ∧ ∀ l ∈ sampleBook.flatten, 0 ≤ l.volume)
      ∧ (∀ bar ∈ (mkOutput sampleBook none none none none).askBars,
            0 ≤ bar.2.1 ∧ bar.2.1 ≤ 1)
        ∧ (∀ bar ∈ (mkOutput sampleBook none none none none).bidBars,
            0 ≤ -bar.2.1 ∧ -bar.2.1 ≤ 1) := by
  have hok : plotOrderFlow sampleBook none none none none
      = Except.ok (mkOutput sampleBook none none none none) :=
    plot_eq_ok sampleBook none none none none (by decide) (by decide) (by decide)
  have hnn : ∀ l ∈ sampleBook.flatten, 0 ≤ l.volume := by decide
  exact ⟨⟨hok, hnn⟩, norm_volumes_in_unit_interval sampleBook none none none none _ hok hnn⟩

/-- Claim C3: under a successful render, the gridline list has no duplicates
and its members are exactly the prices occurring in some ask or bid Level. -/
theorem gridlines_eq_distinct_prices (bss : List (List Level))
    (p v b s : Option (List ℚ)) (out : Output)
    (h : plotOrderFlow bss p v b s = Except.ok out) :
    out.gridlines.Nodup
      ∧ ∀ q : ℚ, q ∈ out.gridlines ↔
          ∃ l ∈ bss.flatten, (l.side = "ask" ∨ l.side = "bid") ∧ l.price = q := by
  obtain ⟨-, -, -, rfl⟩ := (plot_ok_iff bss p v b s out).mp h
  constructor
  · rw [gridlines_mkOutput]
    exact ((List.perm_insertionSort _ _).symm).nodup (List.nodup_dedup _)
  · intro q
    rw [gridlines_mkOutput, List.mem_insertionSort, List.mem_dedup, List.mem_append]
    constructor
    · rintro (hq | hq)
      · obtain ⟨l, hl, rfl⟩ := List.mem_map.mp hq
        obtain ⟨hmem, hside⟩ := List.mem_filter.mp hl
        exact ⟨l, hmem, Or.inl (by simpa using hside), rfl⟩
      · obtain ⟨l, hl, rfl⟩ := List.mem_map.mp hq
        obtain ⟨hmem, hside⟩ := List.mem_filter.mp hl
        exact ⟨l, hmem, Or.inr (by simpa using hside), rfl⟩
    · rintro ⟨l, hmem, hside | hside, rfl⟩
      · exact Or.inl (List.mem_map.mpr
          ⟨l, List.mem_filter.mpr ⟨hmem, by simp [hside]⟩, rfl⟩)
      · exact Or.inr (List.mem_map.mpr
          ⟨l, List.mem_filter.mpr ⟨hmem, by simp [hside]⟩, rfl⟩)

/-- Witness for C3 at the docstring example book. -/
theorem gridlines_eq_distinct_prices_witness :
    plotOrderFlow sampleBook none none none none
        = Except.ok (mkOutput sampleBook none none none none)
      ∧ (mkOutput sampleBook none none none none).gridlines.Nodup
      ∧ ∀ q : ℚ, q ∈ (mkOutput sampleBook none none none none).gridlines ↔
          ∃ l ∈ sampleBook.flatten, (l.side = "ask" ∨ l.side = "bid") ∧ l.price = q := by
  have hok : plotOrderFlow sampleBook none none none none
      = Except.ok (mkOutput sampleBook none none none none) :=
    plot_eq_ok sampleBook none none none none (by decide) (by decide) (by decide)
  exact ⟨hok, gridlines_eq_distinct_prices sampleBook none none none none _ hok⟩

/-! ### Indexing the scatter size lists -/

theorem zip_prod_getD (vs : List ℚ) :
    ∀ (bs : List ℚ) (i : ℕ), i < vs.length → i < bs.length →
      (((vs.zip bs).map (fun vb => vb.1 * vb.2)).map (fun val => val * 20)).getD i 0
        = vs.getD i 0 * bs.getD i 0 * 20 := by
  induction vs with
  | nil => intro bs i h1 _; simp at h1
  | cons x xs ih =>
    intro bs i h1 h2
    cases bs with
    | nil => simp at h2
    | cons y ys =>
      cases i with
      | zero => rfl
      | succ n =>
        simp only [List.zip_cons_cons, List.map_cons, List.getD_cons_succ]
        exact ih ys n (by simpa using h1) (by simpa using h2)

/-- Claim C4: when the four overlay sequences are all supplied, non-empty and
of equal length, the green scatter size at step `i` is exactly
`volumes[i] * buy[i] * 20` and the red one `volumes[i] * sell[i] * 20` (the
same constant factor 20 at every step), and a step with
`buy[i] = sell[i] = 0` has both sizes zero. -/
theorem marker_sizes_proportional (bss : List (List Level))
    (ps vs bs ss : List ℚ) (out : Output)
    (h : plotOrderFlow bss (some ps) (some vs) (some bs) (some ss) = Except.ok out)
    (hps : ps ≠ []) (hv : vs.length = ps.length) (hb : bs.length = ps.length)
    (hs : ss.length = ps.length) :
    out.greenSizes.isSome = true ∧ out.redSizes.isSome = true
      ∧ ∀ i : ℕ, i < ps.length →
          (out.greenSizes.getD []).getD i 0 = vs.getD i 0 * bs.getD i 0 * 20
          ∧ (out.redSizes.getD []).getD i 0 = vs.getD i 0 * ss.getD i 0 * 20
          ∧ (bs.getD i 0 = 0 → ss.getD i 0 = 0 →
              (out.greenSizes.getD []).getD i 0 = 0
                ∧ (out.redSizes.getD []).getD i 0 = 0) := by
  obtain ⟨-, -, -, rfl⟩ :=
    (plot_ok_iff bss (some ps) (some vs) (some bs) (some ss) out).mp h
  have hvs : vs ≠ [] := fun hnil =>
    hps (List.length_eq_zero.mp (by rw [hnil] at hv; exact hv.symm))
  have hbs : bs ≠ [] := fun hnil =>
    hps (List.length_eq_zero.mp (by rw [hnil] at hb; exact hb.symm))
  have hss : ss ≠ [] := fun hnil =>
    hps (List.length_eq_zero.mp (by rw [hnil] at hs; exact hs.symm))
  have hov := tradeOverlay_all ps vs bs ss hps hvs hbs hss
  have hg : (mkOutput bss (some ps) (some vs) (some bs) (some ss)).greenSizes
      = some (((vs.zip bs).map (fun vb => vb.1 * vb.2)).map (fun val => val * 20)) := by
    rw [(overlay_mkOutput bss (some ps) (some vs) (some bs) (some ss)).2.1, hov]
  have hr : (mkOutput bss (some ps) (some vs) (some bs) (some ss)).redSizes
      = some (((vs.zip ss).map (fun vb => vb.1 * vb.2)).map (fun val => val * 20)) := by
    rw [(overlay_mkOutput bss (some ps) (some vs) (some bs) (some ss)).2.2, hov]
  refine ⟨by rw [hg]; rfl, by rw [hr]; rfl, ?_⟩
  intro i hi
  have h1 : i < vs.length := by rw [hv]; exact hi
  have h2 : i < bs.length := by rw [hb]; exact hi
  have h3 : i < ss.length := by rw [hs]; exact hi
  have eg : (((mkOutput bss (some ps) (some vs) (some bs) (some ss)).greenSizes).getD []).getD i 0
      = vs.getD i 0 * bs.getD i 0 * 20 := by
    rw [hg, Option.getD_some]
    exact zip_prod_getD vs bs i h1 h2
  have er : (((mkOutput bss (some ps) (some vs) (some bs) (some ss)).redSizes).getD []).getD i 0
      = vs.getD i 0 * ss.getD i 0 * 20 := by
    rw [hr, Option.getD_some]
    exact zip_prod_getD vs ss i h1 h3
  refine ⟨eg, er, ?_⟩
  intro hb0 hs0
  constructor
  · rw [eg, hb0, mul_zero, zero_mul]
  · rw [er, hs0, mul_zero, zero_mul]

/-- Witness for C4: the docstring example book with the overlay example of the
design document, truncated to two steps. -/
theorem marker_sizes_proportional_witness :
    (plotOrderFlow sampleBook (some [100, 98]) (some [8, 7]) (some [1, 0]) (some [0, 1])
        = Except.ok (mkOutput sampleBook (some [100, 98]) (some [8, 7])
            (some [1, 0]) (some [0, 1]))
      ∧ ([100, 98] : List ℚ) ≠ []
      ∧ ([8, 7] : List ℚ).length = ([100, 98] : List ℚ).length
      ∧ ([1, 0] : List ℚ).length = ([100, 98] : List ℚ).length
      ∧ ([0, 1] : List ℚ).length = ([100, 98] : List ℚ).length)
      ∧ ((mkOutput sampleBook (some [100, 98]) (some [8, 7]) (some [1, 0])
            (some [0, 1])).greenSizes.isSome = true
        ∧ (mkOutput sampleBook (some [100, 98]) (some [8, 7]) (some [1, 0])
            (some [0, 1])).redSizes.isSome = true
        ∧ ∀ i : ℕ, i < ([100, 98] : List ℚ).length →
            ((mkOutput sampleBook (some [100, 98]) (some [8, 7]) (some [1, 0])
                (some [0, 1])).greenSizes.getD []).getD i 0
              = ([8, 7] : List ℚ).getD i 0 * ([1, 0] : List ℚ).getD i 0 * 20
            ∧ ((mkOutput sampleBook (some [100, 98]) (some [8, 7]) (some [1, 0])
                (some [0, 1])).redSizes.getD []).getD i 0
              = ([8, 7] : List ℚ).getD i 0 * ([0, 1] : List ℚ).getD i 0 * 20
            ∧ (([1, 0] : List ℚ).getD i 0 = 0 → ([0, 1] : List ℚ).getD i 0 = 0 →
                ((mkOutput sampleBook (some [100, 98]) (some [8, 7]) (some [1, 0])
                    (some [0, 1])).greenSizes.getD []).getD i 0 = 0
                  ∧ ((mkOutput sampleBook (some [100, 98]) (some [8, 7]) (some [1, 0])
                      (some [0, 1])).redSizes.getD []).getD i 0 = 0)) := by
  have hok : plotOrderFlow sampleBook (some [100, 98]) (some [8, 7]) (some [1, 0]) (some [0, 1])
      = Except.ok (mkOutput sampleBook (some [100, 98]) (some [8, 7])
          (some [1, 0]) (some [0, 1])) :=
    plot_eq_ok sampleBook (some [100, 98]) (some [8, 7]) (some [1, 0]) (some [0, 1])
      (by decide) (by decide) (by decide)
  exact ⟨⟨hok, by decide, by decide, by decide, by decide⟩,
    marker_sizes_proportional sampleBook [100, 98] [8, 7] [1, 0] [0, 1] _ hok
      (by decide) (by decide) (by decide) (by decide)⟩

/-- Claim C7: under a successful render with non-negative volumes, the maximum
over all normalized ask and bid volumes (the ask bar heights together with the
negated bid bar heights) is exactly 1: the globally maximal volume is attained
by some Level and normalizes to itself divided by itself. -/
theorem max_norm_volume_eq_one (bss : List (List Level))
    (p v b s : Option (List ℚ)) (out : Output)
    (h : plotOrderFlow bss p v b s = Except.ok out)
    (hnn : ∀ l ∈ bss.flatten, 0 ≤ l.volume) :
    pyMax (out.askBars.map (fun bar => bar.2.1)
      ++ out.bidBars.map (fun bar => -bar.2.1)) = 1 := by
  obtain ⟨hA, hB, hM, rfl⟩ := (plot_ok_iff bss p v b s out).mp h
  have hMpos := maxVolume_pos bss hA hM hnn
  rw [askBars_mkOutput, bidBars_mkOutput, List.map_map, List.map_map]
  have e1 : ((fun bar : ℚ × ℚ × ℚ => bar.2.1)
      ∘ (fun l : Level => (l.time, l.volume / maxVolume bss, l.price)))
      = fun l : Level => l.volume / maxVolume bss := rfl
  have e2 : ((fun bar : ℚ × ℚ × ℚ => -bar.2.1)
      ∘ (fun l : Level => (l.time, -(l.volume / maxVolume bss), l.price)))
      = fun l : Level => l.volume / maxVolume bss := by
    funext l
    simp
  rw [e1, e2]
  have hAv : (askData bss).map Level.volume ≠ [] := by
    intro hnil
    exact hA (by simpa using hnil)
  have hBv : (bidData bss).map Level.volume ≠ [] := by
    intro hnil
    exact hB (by simpa using hnil)
  apply le_antisymm
  · apply pyMax_le
    · intro hnil
      rw [List.append_eq_nil] at hnil
      have : askData bss = [] := by simpa using hnil.1
      exact hA this
    · intro x hx
      rcases List.mem_append.mp hx with hx | hx
      · obtain ⟨l, hl, rfl⟩ := List.mem_map.mp hx
        rw [div_le_one hMpos]
        calc l.volume ≤ pyMax ((askData bss).map Level.volume) :=
              le_pyMax (List.mem_map.mpr ⟨l, hl, rfl⟩)
          _ ≤ maxVolume bss := le_max_left _ _
      · obtain ⟨l, hl, rfl⟩ := List.mem_map.mp hx
        rw [div_le_one hMpos]
        calc l.volume ≤ pyMax ((bidData bss).map Level.volume) :=
              le_pyMax (List.mem_map.mpr ⟨l, hl, rfl⟩)
          _ ≤ maxVolume bss := le_max_right _ _
  · have hMmem : maxVolume bss ∈ (askData bss).map Level.volume
        ∨ maxVolume bss ∈ (bidData bss).map Level.volume := by
      rcases max_choice (pyMax ((askData bss).map Level.volume))
          (pyMax ((bidData bss).map Level.volume)) with hc | hc
      · left
        unfold maxVolume
        rw [hc]
        exact pyMax_mem hAv
      · right
        unfold maxVolume
        rw [hc]
        exact pyMax_mem hBv
    apply le_pyMax
    rcases hMmem with hc | hc
    · obtain ⟨l, hl, hlv⟩ := List.mem_map.mp hc
      exact List.mem_append.mpr (Or.inl (List.mem_map.mpr
        ⟨l, hl, by rw [hlv]; exact div_self hM⟩))
    · obtain ⟨l, hl, hlv⟩ := List.mem_map.mp hc
      exact List.mem_append.mpr (Or.inr (List.mem_map.mpr
        ⟨l, hl, by rw [hlv]; exact div_self hM⟩))

/-- Witness for C7 at the docstring example book. -/
theorem max_norm_volume_eq_one_witness :
    (plotOrderFlow sampleBook none none none none
        = Except.ok (mkOutput sampleBook none none none none)
      ∧ ∀ l ∈ sampleBook.flatten, 0 ≤ l.volume)
      ∧ pyMax ((mkOutput sampleBook none none none none).askBars.map (fun bar => bar.2.1)
          ++ (mkOutput sampleBook none none none none).bidBars.map (fun bar => -bar.2.1)) = 1 := by
  have hok : plotOrderFlow sampleBook none none none none
      = Except.ok (mkOutput sampleBook none none none none) :=
    plot_eq_ok sampleBook none none none none (by decide) (by decide) (by decide)
  have hnn : ∀ l ∈ sampleBook.flatten, 0 ≤ l.volume := by decide
  exact ⟨⟨hok, hnn⟩, max_norm_volume_eq_one sampleBook none none none none _ hok hnn⟩

end OrderFlow
